import Mathlib

/-!
Verification of the crequests HTTP client core (src/crequests/connection.cpp,
src/crequests/session.cpp, src/crequests/auth.cpp) against its natural-language
specification.

The connection state machine of `conn_impl_t` is shallowly embedded as a pure
transition function over a record `Conn` that carries the fields the claims
observe: the `state` error code, the reuse flag, the request flags (redirect,
redirect_count cap, keep_alive, throw_on_error), the response observables
(status code, redirect counter, Location / Content-Length / Transfer-Encoding /
Connection-close header flags), the scratch `content_length` counter, the size
of the response streambuf, and an instrumentation log of the externally visible
actions (arming timers, fulfilling the promise, issuing I/O, restarting).
Asynchronous completions are events carrying the error code and, for reads, the
number of bytes the reactor deposited in the buffer together with the outcomes
of the black-box parser steps (the parser adapter is external to the three
source files and is driven through `parser_execute` (the embedding of `execute_parser`)).  `Reach` is the set of
connection states reachable from a freshly constructed connection via any
sequence of completions.
-/

namespace Crequests

/-- The `error_code_t` enumeration as used by `conn_impl_t::state`. -/
inductive ErrorCode where
  | INIT
  | RESOLVE
  | CONNECT
  | HANDSHAKE
  | WRITE
  | READ_STATUS
  | READ_HEADERS
  | READ_CONTENT_LENGTH
  | READ_CHUNK_HEADER
  | READ_CHUNK_DATA
  | READ_UNTIL_EOF
  | RESOLVE_ERROR
  | CONNECT_ERROR
  | HANDSHAKE_ERROR
  | WRITE_ERROR
  | READ_STATUS_ERROR
  | READ_STATUS_DATA_ERROR
  | READ_HEADERS_ERROR
  | READ_CONTENT_LENGTH_ERROR
  | READ_CHUNK_HEADER_ERROR
  | READ_CHUNK_DATA_ERROR
  | READ_UNTIL_EOF_ERROR
  | REDIRECT_EXHAUSTED
  | REDIRECT_ERROR
  | TIMEOUT
  | EXPIRED
  | SUCCESS
deriving DecidableEq

/-- Boost asio error conditions distinguished by the connection code. -/
inductive Ec where
  | ok
  | eof
  | connection_reset
  | connection_aborted
  | broken_pipe
  | stream_truncated
  | operation_aborted
  | other_error
deriving DecidableEq

/-- Mirrors the anonymous-namespace `is_socket_closed` of connection.cpp. -/
def is_socket_closed (ec : Ec) : Bool :=
  match ec with
  | .eof => true
  | .connection_reset => true
  | .connection_aborted => true
  | .broken_pipe => true
  | .stream_truncated => true
  | _ => false

/-- Mirrors the anonymous-namespace `is_eof` of connection.cpp: a truthy error
code equal to `eof` or `ssl stream_truncated`. -/
def is_eof (ec : Ec) : Bool :=
  match ec with
  | .eof => true
  | .stream_truncated => true
  | _ => false

/-- Stand-in for `ec.message()` used by `set_error(new_state, ec)`. -/
def ec_message (ec : Ec) : String :=
  match ec with
  | .ok => "ok"
  | .eof => "end of file"
  | .connection_reset => "connection reset"
  | .connection_aborted => "connection aborted"
  | .broken_pipe => "broken pipe"
  | .stream_truncated => "stream truncated"
  | .operation_aborted => "operation canceled"
  | .other_error => "error"

/-- Mirrors `is_redirect_code` (codes 301, 302, 303). -/
def is_redirect_code (code : Nat) : Bool :=
  code == 301 || code == 302 || code == 303

/-- Externally visible actions of the connection, recorded in order. -/
inductive Action where
  | armTimeout
  | armDispose
  | fulfill
  | restartStream
  | ioResolve
  | ioConnect
  | ioHandshake
  | ioWrite
  | ioReadUntil
  | ioReadAtLeast (n : Nat)
deriving DecidableEq

/-- Outcome of one `parser_execute` step of the black-box parser adapter: how
many bytes it consumed (capped by the buffer) and the response observables its
callbacks updated (status line, headers-complete, chunk header, body slice). -/
structure PStep where
  nparsed : Nat
  statusCode : Option Nat
  contentLength : Option Nat
  hasLocationHdr : Option Bool
  hasContentLengthHdr : Option Bool
  transferChunked : Option Bool
  hasConnectionClose : Option Bool
  bodyLen : Nat
deriving DecidableEq

/-- A parser step that consumes `n` bytes and reports nothing else; convenient
for building concrete runs. -/
def pstep (n : Nat) : PStep :=
  { nparsed := n, statusCode := none, contentLength := none,
    hasLocationHdr := none, hasContentLengthHdr := none,
    transferChunked := none, hasConnectionClose := none, bodyLen := 0 }

/-- The observable state of one `conn_impl_t` instance.  Request fields that no
claim observes (URI pieces, TLS material, callbacks, the serialized request
buffer) are not tracked; `response_buf` is tracked by its size, `raw` by its
length, and the promise/timers by counters plus the ordered action log. -/
structure Conn where
  state : ErrorCode
  m_is_reused : Bool
  stream_open : Bool
  redirect : Bool
  redirect_count_cap : Nat
  keep_alive : Bool
  throw_on_error : Bool
  status_code : Nat
  redirect_count : Nat
  redirects_len : Nat
  has_location : Bool
  has_cl_hdr : Bool
  te_chunked : Bool
  conn_close : Bool
  err : Option (ErrorCode × String)
  content_length : Nat
  response_buf : Nat
  rawLen : Nat
  fulfilled : Nat
  dispose_armed : Nat
  log : List Action
deriving DecidableEq

/-- Mirrors `conn_impl_t::in_final_state` (the exact switch of the source). -/
def in_final_state (s : ErrorCode) : Bool :=
  match s with
  | .RESOLVE_ERROR => true
  | .CONNECT_ERROR => true
  | .HANDSHAKE_ERROR => true
  | .WRITE_ERROR => true
  | .READ_STATUS_ERROR => true
  | .READ_STATUS_DATA_ERROR => true
  | .READ_HEADERS_ERROR => true
  | .READ_CONTENT_LENGTH_ERROR => true
  | .READ_CHUNK_HEADER_ERROR => true
  | .READ_CHUNK_DATA_ERROR => true
  | .READ_UNTIL_EOF_ERROR => true
  | .REDIRECT_EXHAUSTED => true
  | .REDIRECT_ERROR => true
  | .TIMEOUT => true
  | .EXPIRED => true
  | .SUCCESS => true
  | .WRITE => false
  | .READ_STATUS => false
  | .READ_HEADERS => false
  | .READ_CONTENT_LENGTH => false
  | .READ_CHUNK_HEADER => false
  | .READ_CHUNK_DATA => false
  | .READ_UNTIL_EOF => false
  | .INIT => false
  | .RESOLVE => false
  | .CONNECT => false
  | .HANDSHAKE => false

/-- Mirrors `conn_impl_t::is_expired`. -/
def is_expired (c : Conn) : Bool :=
  c.state == ErrorCode.EXPIRED

/-- Mirrors `conn_impl_t::is_reused`. -/
def is_reused (c : Conn) : Bool :=
  c.m_is_reused

/-- Mirrors `is_redirect_exhausted` of connection.cpp: the response's redirect
counter has reached the request's redirect_count cap. -/
def is_redirect_exhausted (c : Conn) : Bool :=
  decide (c.redirect_count ≥ c.redirect_count_cap)

/-- Mirrors `conn_impl_t::set_state`: the state is overwritten only when the
machine is not in a final state, or when the current state is `EXPIRED` (note:
the source tests the current state, not the new one). -/
def set_state (c : Conn) (s : ErrorCode) : Conn :=
  if !(in_final_state c.state) || c.state == ErrorCode.EXPIRED then
    { c with state := s }
  else
    c

/-- Mirrors `conn_impl_t::setup_timeout`: arms the overall timeout timer. -/
def setup_timeout (c : Conn) : Conn :=
  { c with log := c.log ++ [Action.armTimeout] }

/-- Mirrors `conn_impl_t::setup_dispose_timer`: arms the dispose timer. -/
def setup_dispose_timer (c : Conn) : Conn :=
  { c with dispose_armed := c.dispose_armed + 1,
           log := c.log ++ [Action.armDispose] }

/-- Mirrors `conn_impl_t::end`: cancel resolver and timeout timer, run the
final callback, arm the dispose timer, close the stream when keep-alive is on
and the response says `Connection: close` (otherwise only cancel), move the raw
body into the response, signal the body callback, and finally fulfill the
promise (exceptionally under `throw_on_error` with an error, normally
otherwise; both are one fulfillment). -/
def end_ (c : Conn) : Conn :=
  let c := setup_dispose_timer c
  let c :=
    if c.keep_alive then
      if c.conn_close then { c with stream_open := false } else c
    else
      c
  { c with fulfilled := c.fulfilled + 1, log := c.log ++ [Action.fulfill] }

/-- Mirrors `conn_impl_t::set_error(new_state, msg)`: a no-op in a final state,
otherwise records the state and error and finalizes. -/
def set_error (c : Conn) (new_state : ErrorCode) (msg : String) : Conn :=
  if in_final_state c.state then
    c
  else
    let c := set_state c new_state
    let c := { c with err := some (new_state, msg) }
    end_ c

/-- Mirrors `conn_impl_t::set_error(new_state, ec)`: swallows
`operation_aborted`, otherwise reports `ec.message()`. -/
def set_error_ec (c : Conn) (new_state : ErrorCode) (ec : Ec) : Conn :=
  if ec == Ec.operation_aborted then c
  else set_error c new_state (ec_message ec)

/-- Mirrors `conn_impl_t::execute_parser` plus the parser callbacks installed
by `prepare_parser`: the parser consumes at most the buffered bytes, its
callbacks update the response observables, and the call reports whether any
bytes were parsed. -/
def parser_execute (c : Conn) (p : PStep) : Conn × Bool :=
  let n := min p.nparsed c.response_buf
  let c :=
    { c with
      response_buf := c.response_buf - n,
      status_code := p.statusCode.getD c.status_code,
      content_length := p.contentLength.getD c.content_length,
      has_location := p.hasLocationHdr.getD c.has_location,
      has_cl_hdr := p.hasContentLengthHdr.getD c.has_cl_hdr,
      te_chunked := p.transferChunked.getD c.te_chunked,
      conn_close := p.hasConnectionClose.getD c.conn_close,
      rawLen := c.rawLen + p.bodyLen }
  (c, decide (0 < n))

/-- Mirrors `conn_impl_t::prepare_parser`: resets the scratch raw body, header
field, and content-length counter (the rebuilt parser callbacks are modelled in
`parser_execute`). -/
def parser_prepare (c : Conn) : Conn :=
  { c with rawLen := 0, content_length := 0 }

/-- Mirrors `conn_impl_t::resolve`: enters RESOLVE and issues async_resolve. -/
def resolve (c : Conn) : Conn :=
  let c := set_state c ErrorCode.RESOLVE
  { c with log := c.log ++ [Action.ioResolve] }

/-- Mirrors `conn_impl_t::connect`: enters CONNECT and issues async_connect. -/
def connect (c : Conn) : Conn :=
  let c := set_state c ErrorCode.CONNECT
  { c with log := c.log ++ [Action.ioConnect] }

/-- Mirrors `conn_impl_t::handshake`: enters HANDSHAKE and issues the (possibly
trivial) async_handshake. -/
def handshake (c : Conn) : Conn :=
  let c := set_state c ErrorCode.HANDSHAKE
  { c with log := c.log ++ [Action.ioHandshake] }

/-- Mirrors `conn_impl_t::write`: serializes the request (untracked) and issues
async_write in state WRITE. -/
def write (c : Conn) : Conn :=
  let c := set_state c ErrorCode.WRITE
  { c with log := c.log ++ [Action.ioWrite] }

/-- Mirrors `conn_impl_t::read_status`: async_read_until CRLF in READ_STATUS. -/
def read_status (c : Conn) : Conn :=
  let c := set_state c ErrorCode.READ_STATUS
  { c with log := c.log ++ [Action.ioReadUntil] }

/-- Mirrors `conn_impl_t::read_headers`: async_read_until CRLFCRLF. -/
def read_headers (c : Conn) : Conn :=
  let c := set_state c ErrorCode.READ_HEADERS
  { c with log := c.log ++ [Action.ioReadUntil] }

/-- Mirrors `conn_impl_t::read_content_length`: reads at least
`content_length - buffered` more bytes (zero when the buffer already holds
strictly more than the declared length). -/
def read_content_length (c : Conn) : Conn :=
  let c := set_state c ErrorCode.READ_CONTENT_LENGTH
  let n := if c.response_buf > c.content_length then 0
           else c.content_length - c.response_buf
  { c with log := c.log ++ [Action.ioReadAtLeast n] }

/-- Mirrors `conn_impl_t::read_until_eof`: reads at least one byte. -/
def read_until_eof (c : Conn) : Conn :=
  let c := set_state c ErrorCode.READ_UNTIL_EOF
  { c with log := c.log ++ [Action.ioReadAtLeast 1] }

/-- Mirrors `conn_impl_t::read_chunk_data`: reads at least
`content_length - buffered` bytes of the current chunk (the caller guarantees
the buffer holds at most `content_length` bytes, so the size_t subtraction
does not underflow). -/
def read_chunk_data (c : Conn) : Conn :=
  let c := set_state c ErrorCode.READ_CHUNK_DATA
  { c with log := c.log ++ [Action.ioReadAtLeast (c.content_length - c.response_buf)] }

/-- Mirrors `conn_impl_t::perform_redirect`: exhaustion and missing-Location
checks, then snapshot the chain (seeding it with the current response when
empty, and appending the new response), increment the counter, rebuild request,
response, stream, buffers and parser, and re-enter RESOLVE. -/
def perform_redirect (c : Conn) : Conn :=
  if is_redirect_exhausted c then
    set_error c ErrorCode.REDIRECT_EXHAUSTED "redirect exhausted"
  else if !c.has_location then
    set_error c ErrorCode.REDIRECT_ERROR "no Location."
  else
    let redirects_len := if c.redirects_len = 0 then 1 else c.redirects_len
    let c :=
      { c with
        redirect_count := c.redirect_count + 1,
        redirects_len := redirects_len + 1,
        status_code := 0,
        has_location := false,
        has_cl_hdr := false,
        te_chunked := false,
        conn_close := false,
        err := none,
        rawLen := 0,
        content_length := 0,
        stream_open := false,
        response_buf := 0 }
    resolve c

/-- Mirrors `conn_impl_t::set_success`.  Note the source's branch structure:
when the status is a redirect code and `redirect` is off, neither branch body
runs and the connection is left untouched. -/
def set_success (c : Conn) : Conn :=
  if is_redirect_code c.status_code then
    if c.redirect then perform_redirect c else c
  else
    if !(in_final_state c.state) then
      let c := set_state c ErrorCode.SUCCESS
      let c := { c with err := some (ErrorCode.SUCCESS, "success") }
      end_ c
    else
      c

/-- Mirrors `conn_impl_t::set_timeout`: in a final state only closes the stream
unless keep-alive; otherwise transitions to TIMEOUT and finalizes. -/
def set_timeout (c : Conn) : Conn :=
  if in_final_state c.state then
    if !c.keep_alive then { c with stream_open := false } else c
  else
    let c := set_state c ErrorCode.TIMEOUT
    let c := { c with err := some (ErrorCode.TIMEOUT, "timeout") }
    end_ c

/-- Mirrors `conn_impl_t::set_dispose`: simply `set_state(EXPIRED)`. -/
def set_dispose (c : Conn) : Conn :=
  set_state c ErrorCode.EXPIRED

/-- Mirrors `conn_impl_t::on_timeout`: acts only on a non-aborted expiry. -/
def on_timeout (c : Conn) (ec : Ec) : Conn :=
  if ec == Ec.ok then set_timeout c else c

/-- Mirrors `conn_impl_t::on_dispose_timer`: acts only on a non-aborted
expiry. -/
def on_dispose_timer (c : Conn) (ec : Ec) : Conn :=
  if ec == Ec.ok then set_dispose c else c

/-- Mirrors `conn_impl_t::restart`: cancel and rebuild the stream and parser,
clear the reused flag, and run `start()`; since the flag is now false, that
`start()` is `parser_prepare` followed by `resolve` and `setup_timeout`, which
is inlined here to keep the recursion finite. -/
def restart (c : Conn) : Conn :=
  let c := { c with stream_open := false, m_is_reused := false,
                    log := c.log ++ [Action.restartStream] }
  setup_timeout (resolve (parser_prepare c))

/-- Mirrors `conn_impl_t::start`: prepare the parser; a reused connection with
an open stream jumps to WRITE, a reused one with a closed stream restarts, and
a fresh one resolves; finally the overall timeout is armed. -/
def start (c : Conn) : Conn :=
  let c := parser_prepare c
  let c :=
    if is_reused c then
      if c.stream_open then write c else restart c
    else
      resolve c
  setup_timeout c

/-- Mirrors `conn_impl_t::on_resolve`. -/
def on_resolve (c : Conn) (ec : Ec) : Conn :=
  if ec == Ec.ok then connect c
  else set_error_ec c ErrorCode.RESOLVE_ERROR ec

/-- Mirrors `conn_impl_t::on_connect` (the keep-alive socket option has no
tracked effect). -/
def on_connect (c : Conn) (ec : Ec) : Conn :=
  if ec == Ec.ok then handshake c
  else set_error_ec c ErrorCode.CONNECT_ERROR ec

/-- Mirrors `conn_impl_t::on_handshake`. -/
def on_handshake (c : Conn) (ec : Ec) : Conn :=
  if ec == Ec.ok then write c
  else set_error_ec c ErrorCode.HANDSHAKE_ERROR ec

/-- Mirrors `conn_impl_t::on_write`: a socket-closed error on a reused,
not-yet-final connection restarts; any other error is WRITE_ERROR. -/
def on_write (c : Conn) (ec : Ec) : Conn :=
  if ec == Ec.ok then
    read_status c
  else
    if is_socket_closed ec && is_reused c && !(in_final_state c.state) then
      restart c
    else
      set_error_ec c ErrorCode.WRITE_ERROR ec

/-- Mirrors `conn_impl_t::on_read_status`: same restart rule as `on_write`; a
successful completion must parse (the status callback), else
READ_STATUS_DATA_ERROR. -/
def on_read_status (c : Conn) (ec : Ec) (ps : List PStep) : Conn :=
  if ec == Ec.ok then
    match ps with
    | [] => set_error c ErrorCode.READ_STATUS_DATA_ERROR "bad status data"
    | p :: _ =>
      let r := parser_execute c p
      if r.2 then read_headers r.1
      else set_error r.1 ErrorCode.READ_STATUS_DATA_ERROR "bad status data"
  else
    if is_socket_closed ec && is_reused c && !(in_final_state c.state) then
      restart c
    else
      set_error_ec c ErrorCode.READ_STATUS_ERROR ec

/-- Mirrors `conn_impl_t::on_read_content_length`: a non-EOF error, or EOF with
fewer buffered bytes than the declared length, is READ_CONTENT_LENGTH_ERROR;
otherwise the parser consumes the body (a failed parse is also
READ_CONTENT_LENGTH_ERROR) and the machine dispatches success-or-redirect. -/
def on_read_content_length (c : Conn) (ec : Ec) (ps : List PStep) : Conn :=
  if (ec != Ec.ok && !(is_eof ec)) ||
     (ec != Ec.ok && is_eof ec && decide (c.response_buf < c.content_length)) then
    set_error_ec c ErrorCode.READ_CONTENT_LENGTH_ERROR ec
  else
    match ps with
    | [] => set_error c ErrorCode.READ_CONTENT_LENGTH_ERROR "bad content length"
    | p :: _ =>
      let r := parser_execute c p
      if r.2 then set_success r.1
      else set_error r.1 ErrorCode.READ_CONTENT_LENGTH_ERROR "bad content length"

/-- Mirrors `conn_impl_t::on_read_until_eof`: EOF feeds the parser once and
dispatches success-or-redirect; other errors are READ_UNTIL_EOF_ERROR; a clean
completion loops back into `read_until_eof`. -/
def on_read_until_eof (c : Conn) (ec : Ec) (ps : List PStep) : Conn :=
  if ec != Ec.ok then
    if !(is_eof ec) then
      set_error_ec c ErrorCode.READ_UNTIL_EOF_ERROR ec
    else
      match ps with
      | [] => set_error c ErrorCode.READ_UNTIL_EOF_ERROR "until eof error"
      | p :: _ =>
        let r := parser_execute c p
        if r.2 then set_success r.1
        else set_error r.1 ErrorCode.READ_UNTIL_EOF_ERROR "until eof error"
  else
    read_until_eof c

mutual

/-- Mirrors `conn_impl_t::read_chunk_header`: enter READ_CHUNK_HEADER, peek the
buffer for a CRLF (the peek outcome is the head of `pk`), and either synthesize
the completion on the spot or issue async_read_until.  `fuel` bounds the
buffered-chunk loop; callers pass more fuel than environment events so the
zero case is never reached on a driven run. -/
def read_chunk_header (fuel : Nat) (c : Conn) (ps : List PStep) (pk : List Bool) : Conn :=
  match fuel with
  | 0 => c
  | fuel + 1 =>
    let c := set_state c ErrorCode.READ_CHUNK_HEADER
    match pk with
    | [] => { c with log := c.log ++ [Action.ioReadUntil] }
    | b :: pk' =>
      if b then on_read_chunk_header fuel c Ec.ok ps pk'
      else { c with log := c.log ++ [Action.ioReadUntil] }

/-- Mirrors `conn_impl_t::on_read_chunk_header`: EOF here is normal termination
(success-or-redirect); other errors are READ_CHUNK_HEADER_ERROR; a successful
completion parses the chunk header (which stores the chunk length in the
scratch counter); a positive length with strictly more bytes already buffered
synthesizes the chunk-data completion, a positive length otherwise issues
`read_chunk_data`, and length zero dispatches success-or-redirect. -/
def on_read_chunk_header (fuel : Nat) (c : Conn) (ec : Ec) (ps : List PStep)
    (pk : List Bool) : Conn :=
  match fuel with
  | 0 => c
  | fuel + 1 =>
    if ec != Ec.ok then
      if !(is_eof ec) then set_error_ec c ErrorCode.READ_CHUNK_HEADER_ERROR ec
      else set_success c
    else
      match ps with
      | [] => set_error c ErrorCode.READ_CHUNK_HEADER_ERROR "bad chunk header"
      | p :: ps' =>
        let r := parser_execute c p
        if r.2 then
          let c := r.1
          if c.content_length > 0 then
            if c.response_buf > c.content_length then
              on_read_chunk_data fuel (set_state c ErrorCode.READ_CHUNK_DATA)
                Ec.ok ps' pk
            else
              read_chunk_data c
          else
            set_success c
        else
          set_error r.1 ErrorCode.READ_CHUNK_HEADER_ERROR "bad chunk header"

/-- Mirrors `conn_impl_t::on_read_chunk_data`: a non-EOF error, or EOF with a
buffer shorter than the current chunk, is READ_CHUNK_DATA_ERROR; otherwise the
parser consumes the chunk (a failed parse is READ_CHUNK_DATA_ERROR) and the
machine loops back to `read_chunk_header`. -/
def on_read_chunk_data (fuel : Nat) (c : Conn) (ec : Ec) (ps : List PStep)
    (pk : List Bool) : Conn :=
  match fuel with
  | 0 => c
  | fuel + 1 =>
    if ec != Ec.ok && !(is_eof ec) then
      set_error_ec c ErrorCode.READ_CHUNK_DATA_ERROR ec
    else if ec != Ec.ok && is_eof ec && decide (c.response_buf < c.content_length) then
      set_error_ec c ErrorCode.READ_CHUNK_DATA_ERROR ec
    else
      match ps with
      | [] => set_error c ErrorCode.READ_CHUNK_DATA_ERROR "chunk data error"
      | p :: ps' =>
        let r := parser_execute c p
        if r.2 then read_chunk_header fuel r.1 ps' pk
        else set_error r.1 ErrorCode.READ_CHUNK_DATA_ERROR "chunk data error"

end

/-- Mirrors `conn_impl_t::read_content`: dispatch on the response headers to
Content-Length, chunked, or read-until-EOF mode. -/
def read_content (fuel : Nat) (c : Conn) (ps : List PStep) (pk : List Bool) : Conn :=
  if c.has_cl_hdr then read_content_length c
  else if c.te_chunked then read_chunk_header fuel c ps pk
  else read_until_eof c

/-- Mirrors `conn_impl_t::on_read_headers`.  Note the source's missing
`return` after the empty-buffer `set_error`: execution falls through to the
parser step and the content dispatch afterwards. -/
def on_read_headers (c : Conn) (ec : Ec) (ps : List PStep) (pk : List Bool) : Conn :=
  if ec != Ec.ok && !(is_eof ec) then
    set_error_ec c ErrorCode.READ_HEADERS_ERROR ec
  else
    let c := if c.response_buf = 0 then
               set_error c ErrorCode.READ_HEADERS_ERROR "no headers"
             else c
    match ps with
    | [] => set_error c ErrorCode.READ_HEADERS_ERROR "bad headers data"
    | p :: ps' =>
      let r := parser_execute c p
      if r.2 then read_content (ps'.length + pk.length + 1) r.1 ps' pk
      else set_error r.1 ErrorCode.READ_HEADERS_ERROR "bad headers data"

/-- One asynchronous completion delivered to the connection's strand: the
pending operation's outcome (`Ec`), for reads the number of bytes the reactor
appended to the response buffer before invoking the handler, and the outcomes
of the parser steps (`PStep`) and CRLF peeks (`Bool`) the handler performs. -/
inductive Ev where
  | evResolve (ec : Ec)
  | evConnect (ec : Ec)
  | evHandshake (ec : Ec)
  | evWrite (ec : Ec)
  | evReadStatus (ec : Ec) (bytes : Nat) (ps : List PStep)
  | evReadHeaders (ec : Ec) (bytes : Nat) (ps : List PStep) (pk : List Bool)
  | evReadContentLength (ec : Ec) (bytes : Nat) (ps : List PStep)
  | evReadChunkHeader (ec : Ec) (bytes : Nat) (ps : List PStep) (pk : List Bool)
  | evReadChunkData (ec : Ec) (bytes : Nat) (ps : List PStep) (pk : List Bool)
  | evReadUntilEof (ec : Ec) (bytes : Nat) (ps : List PStep)
  | evTimeout (ec : Ec)
  | evDispose (ec : Ec)
deriving DecidableEq

/-- Deposit the bytes a read completion delivered into the response buffer
(asio fills the streambuf before the completion handler runs). -/
def deliver (c : Conn) (bytes : Nat) : Conn :=
  { c with response_buf := c.response_buf + bytes }

/-- The handler dispatched for one completion event. -/
def stepEv (c : Conn) (e : Ev) : Conn :=
  match e with
  | .evResolve ec => on_resolve c ec
  | .evConnect ec => on_connect c ec
  | .evHandshake ec => on_handshake c ec
  | .evWrite ec => on_write c ec
  | .evReadStatus ec bytes ps => on_read_status (deliver c bytes) ec ps
  | .evReadHeaders ec bytes ps pk => on_read_headers (deliver c bytes) ec ps pk
  | .evReadContentLength ec bytes ps =>
      on_read_content_length (deliver c bytes) ec ps
  | .evReadChunkHeader ec bytes ps pk =>
      on_read_chunk_header (ps.length + pk.length + 1) (deliver c bytes) ec ps pk
  | .evReadChunkData ec bytes ps pk =>
      on_read_chunk_data (ps.length + pk.length + 1) (deliver c bytes) ec ps pk
  | .evReadUntilEof ec bytes ps => on_read_until_eof (deliver c bytes) ec ps
  | .evTimeout ec => on_timeout c ec
  | .evDispose ec => on_dispose_timer c ec

/-- Which completions the reactor can deliver: everything except a successful
dispose-timer expiry before the dispose timer has ever been armed (the timer is
armed only in `end`; an un-armed timer can only complete as cancelled). -/
def Allowed (c : Conn) (e : Ev) : Prop :=
  match e with
  | .evDispose ec => c.dispose_armed > 0 ∨ ec ≠ Ec.ok
  | _ => True

/-- A freshly constructed `conn_impl_t`: state INIT, empty buffers, counters at
zero.  `reused` selects the reuse constructor (which moves in the previous
connection's stream, possibly still open, and carries its redirects chain). -/
def init_conn (reused stream_open redirect keep_alive throw_on_error : Bool)
    (cap rlen : Nat) : Conn :=
  { state := ErrorCode.INIT,
    m_is_reused := reused,
    stream_open := stream_open,
    redirect := redirect,
    redirect_count_cap := cap,
    keep_alive := keep_alive,
    throw_on_error := throw_on_error,
    status_code := 0,
    redirect_count := 0,
    redirects_len := rlen,
    has_location := false,
    has_cl_hdr := false,
    te_chunked := false,
    conn_close := false,
    err := none,
    content_length := 0,
    response_buf := 0,
    rawLen := 0,
    fulfilled := 0,
    dispose_armed := 0,
    log := [] }

/-- Connections reachable over a lifetime: a constructed connection on which
`start()` was called, then any sequence of deliverable completions. -/
inductive Reach : Conn → Prop where
  | started (reused stream_open redirect keep_alive throw_on_error : Bool)
      (cap rlen : Nat) :
      Reach (start (init_conn reused stream_open redirect keep_alive
        throw_on_error cap rlen))
  | step (c : Conn) (e : Ev) : Reach c → Allowed c e → Reach (stepEv c e)

/-! Auth literal (src/crequests/auth.cpp).  Strings are embedded as `List Char`
so that `find(":")` / `substr` become index computations on the character
list. -/

/-- An `auth_t` value: the `login_t`/`password_t` pair (the source derives from
a pair, accessed as `first`/`second`). -/
structure auth_t where
  first : List Char
  second : List Char
deriving DecidableEq

/-- Index of the first colon, mirroring `str.find(":")` (`none` is `npos`). -/
def find_colon : List Char → Option Nat
  | [] => none
  | ch :: rest =>
    if ch = ':' then some 0 else (find_colon rest).map (fun i => i + 1)

/-- Mirrors `auth_t::from_string`: split at the first colon into
`substr(0, ind)` and `substr(ind + 1)`; no colon is a hard parse error
(`runtime_error`), embedded as `none`. -/
def auth_t.from_string (str : List Char) : Option auth_t :=
  match find_colon str with
  | some ind => some { first := str.take ind, second := str.drop (ind + 1) }
  | none => none

/-- Mirrors `auth_t::to_string`: `first.value() + ":" + second.value()`. -/
def auth_t.to_string (a : auth_t) : List Char :=
  a.first ++ [':'] ++ a.second

/-! Session facade (src/crequests/session.cpp): the `Send` decision between a
fresh connection and reuse of the previous one. -/

/-- The URI components `can_reuse_connection` compares. -/
structure uri_t where
  domain : String
  port : String
  protocol : String
deriving DecidableEq

/-- The request fields `session_impl_t::Send` observes: the URI, the cookie
jar, the auth pair, and the cache_redirects flag. -/
structure request_t where
  uri : uri_t
  cookies : List (String × String)
  auth : String × String
  cache_redirects : Bool
deriving DecidableEq

/-- What the session can observe of its previous connection once the future is
read: the response's request, the response's cookie jar, and the redirect-chain
entry matching the pending request (`response.redirects().find(request)`),
whose lookup lives outside src/. -/
structure prev_conn_t where
  request : request_t
  cookies : List (String × String)
  found : Option request_t
deriving DecidableEq

/-- Mirrors the anonymous-namespace `can_reuse_connection` of session.cpp:
same domain, same port, and same protocol. -/
def can_reuse_connection (request last_request : request_t) : Bool :=
  last_request.uri.domain == request.uri.domain &&
  last_request.uri.port == request.uri.port &&
  last_request.uri.protocol == request.uri.protocol

/-- Modelled from the spec: `cookies_t::update` is implemented outside src/
(cookies.cpp); per the spec's session description the pending request's cookie
jar absorbs the response's cookies, each incoming cookie replacing a same-named
one. -/
def cookies_update (self other : List (String × String)) :
    List (String × String) :=
  other.foldl
    (fun acc kv => acc.filter (fun kv2 => kv2.1 != kv.1) ++ [kv]) self

/-- Mirrors `session_impl_t::skip_redirects`: when the previous response's
redirect chain has an entry for the pending request, adopt that entry's URI,
auth, and cookies (then re-`prepare`, identity on the tracked fields); the
chain lookup itself (`redirects_t::find`) is outside src/ and is supplied as
`found`. -/
def skip_redirects (found : Option request_t) (request : request_t) : request_t :=
  match found with
  | some r => { request with uri := r.uri, auth := r.auth, cookies := r.cookies }
  | none => request

/-- The pending request at decision time inside `Send`: with a previous
connection and `cache_redirects` on, `skip_redirects` runs; otherwise
`request.prepare()` runs, which is the identity on the tracked fields. -/
def send_request (prev : Option prev_conn_t) (request : request_t) : request_t :=
  match prev with
  | some p => if request.cache_redirects then skip_redirects p.found request
              else request
  | none => request

/-- The outcome of `session_impl_t::Send` that the claims observe: which
connection constructor ran and with which request. -/
inductive ConnChoice where
  | fresh (request : request_t)
  | reused (request : request_t)
deriving DecidableEq

/-- Mirrors `session_impl_t::Send`: no previous connection, or a previous
request differing in domain, port, or protocol, constructs a fresh connection;
otherwise the pending request's cookies are updated with the previous
response's cookies and the reuse constructor runs. -/
def session_send (prev : Option prev_conn_t) (request : request_t) : ConnChoice :=
  let request := send_request prev request
  match prev with
  | none => ConnChoice.fresh request
  | some p =>
    if !(can_reuse_connection request p.request) then
      ConnChoice.fresh request
    else
      let cookies := cookies_update request.cookies p.cookies
      ConnChoice.reused { request with cookies := cookies }

/-! Lifetime invariants of the connection machine. -/

/-- In the log, a dispose-timer arming precedes a promise fulfillment. -/
def dbf (l : List Action) : Prop :=
  ∃ l1 l2 l3, l = l1 ++ Action.armDispose :: (l2 ++ Action.fulfill :: l3)

lemma dbf_append {l : List Action} (t : List Action) (h : dbf l) : dbf (l ++ t) := by
  obtain ⟨l1, l2, l3, rfl⟩ := h
  exact ⟨l1, l2, l3 ++ t, by simp⟩

/-- Invariant over a connection's lifetime: the state is never `EXPIRED`, the
promise-fulfillment and dispose-arming counters are zero strictly before the
terminal transition and exactly one from it on (the arming preceding the
fulfillment in the log), and the redirect counter never exceeds the request's
cap. -/
def Inv (c : Conn) : Prop :=
  c.state ≠ ErrorCode.EXPIRED ∧
  (in_final_state c.state = false → c.fulfilled = 0 ∧ c.dispose_armed = 0) ∧
  (in_final_state c.state = true →
    c.fulfilled = 1 ∧ c.dispose_armed = 1 ∧ dbf c.log) ∧
  c.redirect_count ≤ c.redirect_count_cap

lemma inv_of_fields {c c' : Conn} (hInv : Inv c) (h1 : c'.state = c.state)
    (h2 : c'.fulfilled = c.fulfilled) (h3 : c'.dispose_armed = c.dispose_armed)
    (h4 : ∃ t, c'.log = c.log ++ t)
    (h5 : c'.redirect_count = c.redirect_count)
    (h6 : c'.redirect_count_cap = c.redirect_count_cap) : Inv c' := by
  obtain ⟨hE, hN, hF, hR⟩ := hInv
  obtain ⟨t, ht⟩ := h4
  refine ⟨by rw [h1]; exact hE, ?_, ?_, by rw [h5, h6]; exact hR⟩
  · intro h
    rw [h1] at h
    rw [h2, h3]
    exact hN h
  · intro h
    rw [h1] at h
    obtain ⟨ha, hb, hd⟩ := hF h
    exact ⟨by rw [h2]; exact ha, by rw [h3]; exact hb,
      by rw [ht]; exact dbf_append t hd⟩

lemma set_state_of_final {c : Conn} (h1 : in_final_state c.state = true)
    (h2 : c.state ≠ ErrorCode.EXPIRED) (s : ErrorCode) : set_state c s = c := by
  simp [set_state, h1, h2]

lemma set_state_of_not_final {c : Conn} (h : in_final_state c.state = false)
    (s : ErrorCode) : set_state c s = { c with state := s } := by
  simp [set_state, h]

lemma end_spec {c : Conn} :
    (end_ c).state = c.state ∧ (end_ c).fulfilled = c.fulfilled + 1 ∧
    (end_ c).dispose_armed = c.dispose_armed + 1 ∧
    (end_ c).log = c.log ++ [Action.armDispose, Action.fulfill] ∧
    (end_ c).redirect_count = c.redirect_count ∧
    (end_ c).redirect_count_cap = c.redirect_count_cap := by
  cases hk : c.keep_alive <;> cases hc : c.conn_close <;>
    simp [end_, setup_dispose_timer, hk, hc]

lemma set_error_of_final {c : Conn} (h : in_final_state c.state = true)
    (s : ErrorCode) (m : String) : set_error c s m = c := by
  simp [set_error, h]

lemma set_error_of_not_final {c : Conn} (h : in_final_state c.state = false)
    (s : ErrorCode) (m : String) :
    set_error c s m = end_ { c with state := s, err := some (s, m) } := by
  simp [set_error, h, set_state_of_not_final h]

lemma inv_end_of_not_final {c c' : Conn} (hInv : Inv c)
    (hf : in_final_state c.state = false)
    (h1 : in_final_state c'.state = true) (h2 : c'.state ≠ ErrorCode.EXPIRED)
    (h3 : c'.fulfilled = c.fulfilled) (h4 : c'.dispose_armed = c.dispose_armed)
    (h5 : ∃ t, c'.log = c.log ++ t)
    (h6 : c'.redirect_count = c.redirect_count)
    (h7 : c'.redirect_count_cap = c.redirect_count_cap) : Inv (end_ c') := by
  obtain ⟨hE, hN, hF, hR⟩ := hInv
  obtain ⟨hz1, hz2⟩ := hN hf
  obtain ⟨t, ht⟩ := h5
  refine ⟨?_, ?_, ?_, ?_⟩
  · rw [end_spec.1]; exact h2
  · intro h
    rw [end_spec.1, h1] at h
    exact absurd h (by simp)
  · intro _
    refine ⟨?_, ?_, ?_⟩
    · rw [end_spec.2.1, h3, hz1]
    · rw [end_spec.2.2.1, h4, hz2]
    · rw [end_spec.2.2.2.1, ht]
      exact ⟨c.log ++ t, [], [], by simp⟩
  · rw [end_spec.2.2.2.2.1, end_spec.2.2.2.2.2, h6, h7]; exact hR

lemma inv_set_error {c : Conn} {s : ErrorCode} (hInv : Inv c)
    (hs : in_final_state s = true) (hs2 : s ≠ ErrorCode.EXPIRED) (m : String) :
    Inv (set_error c s m) := by
  by_cases hf : in_final_state c.state = true
  · rw [set_error_of_final hf]; exact hInv
  · have hf' : in_final_state c.state = false := by
      simpa using hf
    rw [set_error_of_not_final hf']
    exact inv_end_of_not_final hInv hf' hs hs2 rfl rfl ⟨[], by simp⟩ rfl rfl

lemma inv_set_error_ec {c : Conn} {s : ErrorCode} (hInv : Inv c)
    (hs : in_final_state s = true) (hs2 : s ≠ ErrorCode.EXPIRED) (ec : Ec) :
    Inv (set_error_ec c s ec) := by
  unfold set_error_ec
  split
  · exact hInv
  · exact inv_set_error hInv hs hs2 _

lemma inv_log_append {c : Conn} (hInv : Inv c) (t : List Action) :
    Inv { c with log := c.log ++ t } :=
  inv_of_fields hInv rfl rfl rfl ⟨t, rfl⟩ rfl rfl

lemma inv_set_state {c : Conn} (s : ErrorCode) (hInv : Inv c)
    (hs : in_final_state s = false) : Inv (set_state c s) := by
  by_cases hf : in_final_state c.state = true
  · rw [set_state_of_final hf hInv.1]; exact hInv
  · rw [set_state_of_not_final (by simpa using hf)]
    obtain ⟨hE, hN, hF, hR⟩ := hInv
    refine ⟨?_, ?_, ?_, hR⟩
    · show s ≠ ErrorCode.EXPIRED
      intro hh
      rw [hh] at hs
      exact absurd hs (by decide)
    · show in_final_state s = false → c.fulfilled = 0 ∧ c.dispose_armed = 0
      intro _
      exact hN (by simpa using hf)
    · show in_final_state s = true →
        c.fulfilled = 1 ∧ c.dispose_armed = 1 ∧ dbf c.log
      intro hh
      simp [hs] at hh

lemma inv_error_path {c : Conn} (s : ErrorCode) (hInv : Inv c)
    (hf : in_final_state c.state = false) (hs : in_final_state s = true)
    (hs2 : s ≠ ErrorCode.EXPIRED) (e : Option (ErrorCode × String)) :
    Inv (end_ { c with state := s, err := e }) :=
  inv_end_of_not_final hInv hf hs hs2 rfl rfl ⟨[], by simp⟩ rfl rfl

lemma inv_setup_timeout {c : Conn} (hInv : Inv c) : Inv (setup_timeout c) := by
  unfold setup_timeout
  exact inv_log_append hInv _

lemma inv_parser_prepare {c : Conn} (hInv : Inv c) : Inv (parser_prepare c) :=
  inv_of_fields hInv rfl rfl rfl ⟨[], by simp [parser_prepare]⟩ rfl rfl

lemma inv_parser_execute {c : Conn} (hInv : Inv c) (p : PStep) :
    Inv (parser_execute c p).1 :=
  inv_of_fields hInv rfl rfl rfl ⟨[], by simp [parser_execute]⟩ rfl rfl

lemma inv_deliver {c : Conn} (hInv : Inv c) (bytes : Nat) :
    Inv (deliver c bytes) :=
  inv_of_fields hInv rfl rfl rfl ⟨[], by simp [deliver]⟩ rfl rfl

lemma inv_resolve {c : Conn} (hInv : Inv c) : Inv (resolve c) := by
  unfold resolve
  exact inv_log_append (inv_set_state ErrorCode.RESOLVE hInv rfl) _

lemma inv_connect {c : Conn} (hInv : Inv c) : Inv (connect c) := by
  unfold connect
  exact inv_log_append (inv_set_state ErrorCode.CONNECT hInv rfl) _

lemma inv_handshake {c : Conn} (hInv : Inv c) : Inv (handshake c) := by
  unfold handshake
  exact inv_log_append (inv_set_state ErrorCode.HANDSHAKE hInv rfl) _

lemma inv_write {c : Conn} (hInv : Inv c) : Inv (write c) := by
  unfold write
  exact inv_log_append (inv_set_state ErrorCode.WRITE hInv rfl) _

lemma inv_read_status {c : Conn} (hInv : Inv c) : Inv (read_status c) := by
  unfold read_status
  exact inv_log_append (inv_set_state ErrorCode.READ_STATUS hInv rfl) _

lemma inv_read_headers {c : Conn} (hInv : Inv c) : Inv (read_headers c) := by
  unfold read_headers
  exact inv_log_append (inv_set_state ErrorCode.READ_HEADERS hInv rfl) _

lemma inv_read_content_length {c : Conn} (hInv : Inv c) :
    Inv (read_content_length c) := by
  unfold read_content_length
  exact inv_log_append (inv_set_state ErrorCode.READ_CONTENT_LENGTH hInv rfl) _

lemma inv_read_until_eof {c : Conn} (hInv : Inv c) : Inv (read_until_eof c) := by
  unfold read_until_eof
  exact inv_log_append (inv_set_state ErrorCode.READ_UNTIL_EOF hInv rfl) _

lemma inv_read_chunk_data {c : Conn} (hInv : Inv c) : Inv (read_chunk_data c) := by
  unfold read_chunk_data
  exact inv_log_append (inv_set_state ErrorCode.READ_CHUNK_DATA hInv rfl) _

lemma inv_perform_redirect {c : Conn} (hInv : Inv c) :
    Inv (perform_redirect c) := by
  unfold perform_redirect
  split
  · exact @inv_set_error _ ErrorCode.REDIRECT_EXHAUSTED hInv rfl (by decide) _
  · split
    · exact @inv_set_error _ ErrorCode.REDIRECT_ERROR hInv rfl (by decide) _
    · rename_i hex _
      apply inv_resolve
      obtain ⟨hE, hN, hF, hR⟩ := hInv
      refine ⟨hE, hN, hF, ?_⟩
      show c.redirect_count + 1 ≤ c.redirect_count_cap
      simp [is_redirect_exhausted] at hex
      omega

lemma inv_set_success {c : Conn} (hInv : Inv c) : Inv (set_success c) := by
  unfold set_success
  split
  · split
    · exact inv_perform_redirect hInv
    · exact hInv
  · split
    · rename_i hf
      have hf' : in_final_state c.state = false := by
        simpa using hf
      rw [set_state_of_not_final hf']
      exact inv_error_path ErrorCode.SUCCESS hInv hf' rfl (by decide)
        (some (ErrorCode.SUCCESS, "success"))
    · exact hInv

lemma inv_set_timeout {c : Conn} (hInv : Inv c) : Inv (set_timeout c) := by
  unfold set_timeout
  split
  · split
    · exact inv_of_fields hInv rfl rfl rfl ⟨[], by simp⟩ rfl rfl
    · exact hInv
  · rename_i hf
    have hf' : in_final_state c.state = false := by
      simpa using hf
    rw [set_state_of_not_final hf']
    exact inv_error_path ErrorCode.TIMEOUT hInv hf' rfl (by decide)
      (some (ErrorCode.TIMEOUT, "timeout"))

lemma inv_restart {c : Conn} (hInv : Inv c) : Inv (restart c) := by
  unfold restart
  exact inv_setup_timeout (inv_resolve (inv_parser_prepare
    (inv_of_fields hInv rfl rfl rfl ⟨[Action.restartStream], rfl⟩ rfl rfl)))

lemma inv_start {c : Conn} (hInv : Inv c) : Inv (start c) := by
  unfold start
  apply inv_setup_timeout
  have h := inv_parser_prepare hInv
  split
  · split
    · exact inv_write h
    · exact inv_restart h
  · exact inv_resolve h

lemma inv_on_resolve {c : Conn} (hInv : Inv c) (ec : Ec) :
    Inv (on_resolve c ec) := by
  unfold on_resolve
  split
  · exact inv_connect hInv
  · exact @inv_set_error_ec _ ErrorCode.RESOLVE_ERROR hInv rfl (by decide) _

lemma inv_on_connect {c : Conn} (hInv : Inv c) (ec : Ec) :
    Inv (on_connect c ec) := by
  unfold on_connect
  split
  · exact inv_handshake hInv
  · exact @inv_set_error_ec _ ErrorCode.CONNECT_ERROR hInv rfl (by decide) _

lemma inv_on_handshake {c : Conn} (hInv : Inv c) (ec : Ec) :
    Inv (on_handshake c ec) := by
  unfold on_handshake
  split
  · exact inv_write hInv
  · exact @inv_set_error_ec _ ErrorCode.HANDSHAKE_ERROR hInv rfl (by decide) _

lemma inv_on_write {c : Conn} (hInv : Inv c) (ec : Ec) :
    Inv (on_write c ec) := by
  unfold on_write
  split
  · exact inv_read_status hInv
  · split
    · exact inv_restart hInv
    · exact @inv_set_error_ec _ ErrorCode.WRITE_ERROR hInv rfl (by decide) _

lemma inv_on_read_status {c : Conn} (hInv : Inv c) (ec : Ec) (ps : List PStep) :
    Inv (on_read_status c ec ps) := by
  unfold on_read_status
  split
  · cases ps with
    | nil =>
      exact @inv_set_error _ ErrorCode.READ_STATUS_DATA_ERROR hInv rfl
        (by decide) _
    | cons p ps' =>
      dsimp only
      split
      · exact inv_read_headers (inv_parser_execute hInv _)
      · exact @inv_set_error _ ErrorCode.READ_STATUS_DATA_ERROR
          (inv_parser_execute hInv _) rfl (by decide) _
  · split
    · exact inv_restart hInv
    · exact @inv_set_error_ec _ ErrorCode.READ_STATUS_ERROR hInv rfl
        (by decide) _

lemma inv_on_read_content_length {c : Conn} (hInv : Inv c) (ec : Ec)
    (ps : List PStep) : Inv (on_read_content_length c ec ps) := by
  unfold on_read_content_length
  split
  · exact @inv_set_error_ec _ ErrorCode.READ_CONTENT_LENGTH_ERROR hInv rfl
      (by decide) _
  · cases ps with
    | nil =>
      exact @inv_set_error _ ErrorCode.READ_CONTENT_LENGTH_ERROR hInv rfl
        (by decide) _
    | cons p ps' =>
      dsimp only
      split
      · exact inv_set_success (inv_parser_execute hInv _)
      · exact @inv_set_error _ ErrorCode.READ_CONTENT_LENGTH_ERROR
          (inv_parser_execute hInv _) rfl (by decide) _

lemma inv_on_read_until_eof {c : Conn} (hInv : Inv c) (ec : Ec)
    (ps : List PStep) : Inv (on_read_until_eof c ec ps) := by
  unfold on_read_until_eof
  split
  · split
    · exact @inv_set_error_ec _ ErrorCode.READ_UNTIL_EOF_ERROR hInv rfl
        (by decide) _
    · cases ps with
      | nil =>
        exact @inv_set_error _ ErrorCode.READ_UNTIL_EOF_ERROR hInv rfl
          (by decide) _
      | cons p ps' =>
        dsimp only
        split
        · exact inv_set_success (inv_parser_execute hInv _)
        · exact @inv_set_error _ ErrorCode.READ_UNTIL_EOF_ERROR
            (inv_parser_execute hInv _) rfl (by decide) _
  · exact inv_read_until_eof hInv

lemma inv_chunk (fuel : Nat) :
    ∀ (c : Conn) (ec : Ec) (ps : List PStep) (pk : List Bool), Inv c →
      Inv (read_chunk_header fuel c ps pk) ∧
      Inv (on_read_chunk_header fuel c ec ps pk) ∧
      Inv (on_read_chunk_data fuel c ec ps pk) := by
  induction fuel with
  | zero =>
    intro c ec ps pk h
    simp only [read_chunk_header, on_read_chunk_header, on_read_chunk_data]
    exact ⟨h, h, h⟩
  | succ fuel ih =>
    intro c ec ps pk h
    refine ⟨?_, ?_, ?_⟩
    · simp only [read_chunk_header]
      cases pk with
      | nil =>
        exact inv_log_append (inv_set_state ErrorCode.READ_CHUNK_HEADER h rfl) _
      | cons b pk' =>
        cases b with
        | true =>
          dsimp only
          exact (ih _ Ec.ok ps pk'
            (inv_set_state ErrorCode.READ_CHUNK_HEADER h rfl)).2.1
        | false =>
          exact inv_log_append
            (inv_set_state ErrorCode.READ_CHUNK_HEADER h rfl) _
    · simp only [on_read_chunk_header]
      split
      · split
        · exact @inv_set_error_ec _ ErrorCode.READ_CHUNK_HEADER_ERROR h rfl
            (by decide) _
        · exact inv_set_success h
      · cases ps with
        | nil =>
          exact @inv_set_error _ ErrorCode.READ_CHUNK_HEADER_ERROR h rfl
            (by decide) _
        | cons p ps' =>
          dsimp only
          split
          · split
            · split
              · exact (ih _ Ec.ok _ pk (inv_set_state ErrorCode.READ_CHUNK_DATA
                  (inv_parser_execute h _) rfl)).2.2
              · exact inv_read_chunk_data (inv_parser_execute h _)
            · exact inv_set_success (inv_parser_execute h _)
          · exact @inv_set_error _ ErrorCode.READ_CHUNK_HEADER_ERROR
              (inv_parser_execute h _) rfl (by decide) _
    · simp only [on_read_chunk_data]
      split
      · exact @inv_set_error_ec _ ErrorCode.READ_CHUNK_DATA_ERROR h rfl
          (by decide) _
      · split
        · exact @inv_set_error_ec _ ErrorCode.READ_CHUNK_DATA_ERROR h rfl
            (by decide) _
        · cases ps with
          | nil =>
            exact @inv_set_error _ ErrorCode.READ_CHUNK_DATA_ERROR h rfl
              (by decide) _
          | cons p ps' =>
            dsimp only
            split
            · exact (ih _ ec _ pk (inv_parser_execute h _)).1
            · exact @inv_set_error _ ErrorCode.READ_CHUNK_DATA_ERROR
                (inv_parser_execute h _) rfl (by decide) _

lemma inv_read_content {c : Conn} (hInv : Inv c) (fuel : Nat) (ps : List PStep)
    (pk : List Bool) : Inv (read_content fuel c ps pk) := by
  unfold read_content
  split
  · exact inv_read_content_length hInv
  · split
    · exact (inv_chunk fuel c Ec.ok ps pk hInv).1
    · exact inv_read_until_eof hInv

lemma inv_on_read_headers {c : Conn} (hInv : Inv c) (ec : Ec) (ps : List PStep)
    (pk : List Bool) : Inv (on_read_headers c ec ps pk) := by
  unfold on_read_headers
  split
  · exact @inv_set_error_ec _ ErrorCode.READ_HEADERS_ERROR hInv rfl
      (by decide) _
  · have h1 : Inv (if c.response_buf = 0 then
        set_error c ErrorCode.READ_HEADERS_ERROR "no headers" else c) := by
      split
      · exact @inv_set_error _ ErrorCode.READ_HEADERS_ERROR hInv rfl
          (by decide) _
      · exact hInv
    cases ps with
    | nil =>
      exact @inv_set_error _ ErrorCode.READ_HEADERS_ERROR h1 rfl (by decide) _
    | cons p ps' =>
      dsimp only
      split
      · have h2 : Inv (set_error c ErrorCode.READ_HEADERS_ERROR "no headers") :=
          @inv_set_error _ ErrorCode.READ_HEADERS_ERROR hInv rfl (by decide) _
        split
        · exact inv_read_content (inv_parser_execute h2 _) _ _ _
        · exact @inv_set_error _ ErrorCode.READ_HEADERS_ERROR
            (inv_parser_execute h2 _) rfl (by decide) _
      · split
        · exact inv_read_content (inv_parser_execute hInv _) _ _ _
        · exact @inv_set_error _ ErrorCode.READ_HEADERS_ERROR
            (inv_parser_execute hInv _) rfl (by decide) _

lemma inv_on_timeout {c : Conn} (hInv : Inv c) (ec : Ec) :
    Inv (on_timeout c ec) := by
  unfold on_timeout
  split
  · exact inv_set_timeout hInv
  · exact hInv

lemma inv_on_dispose_timer {c : Conn} (hInv : Inv c) (ec : Ec)
    (hA : c.dispose_armed > 0 ∨ ec ≠ Ec.ok) : Inv (on_dispose_timer c ec) := by
  unfold on_dispose_timer
  split
  · rename_i hok
    have hecok : ec = Ec.ok := by
      simpa using hok
    have harm : c.dispose_armed > 0 := by
      rcases hA with h | h
      · exact h
      · exact absurd hecok h
    have hf : in_final_state c.state = true := by
      by_contra hh
      have := (hInv.2.1 (by simpa using hh)).2
      omega
    unfold set_dispose
    rw [set_state_of_final hf hInv.1]
    exact hInv
  · exact hInv

lemma inv_step {c : Conn} {e : Ev} (hInv : Inv c) (hA : Allowed c e) :
    Inv (stepEv c e) := by
  cases e with
  | evResolve ec => exact inv_on_resolve hInv ec
  | evConnect ec => exact inv_on_connect hInv ec
  | evHandshake ec => exact inv_on_handshake hInv ec
  | evWrite ec => exact inv_on_write hInv ec
  | evReadStatus ec bytes ps => exact inv_on_read_status (inv_deliver hInv _) ec ps
  | evReadHeaders ec bytes ps pk =>
      exact inv_on_read_headers (inv_deliver hInv _) ec ps pk
  | evReadContentLength ec bytes ps =>
      exact inv_on_read_content_length (inv_deliver hInv _) ec ps
  | evReadChunkHeader ec bytes ps pk =>
      exact (inv_chunk _ _ ec ps pk (inv_deliver hInv _)).2.1
  | evReadChunkData ec bytes ps pk =>
      exact (inv_chunk _ _ ec ps pk (inv_deliver hInv _)).2.2
  | evReadUntilEof ec bytes ps =>
      exact inv_on_read_until_eof (inv_deliver hInv _) ec ps
  | evTimeout ec => exact inv_on_timeout hInv ec
  | evDispose ec => exact inv_on_dispose_timer hInv ec hA

lemma inv_init (reused stream_open redirect keep_alive throw_on_error : Bool)
    (cap rlen : Nat) :
    Inv (init_conn reused stream_open redirect keep_alive throw_on_error
      cap rlen) := by
  refine ⟨?_, ?_, ?_, ?_⟩
  · exact (by decide : ErrorCode.INIT ≠ ErrorCode.EXPIRED)
  · intro _
    exact ⟨rfl, rfl⟩
  · intro hh
    exact absurd hh (by decide : ¬ in_final_state ErrorCode.INIT = true)
  · exact Nat.zero_le _

lemma reach_inv {c : Conn} (h : Reach c) : Inv c := by
  induction h with
  | started reused stream_open redirect keep_alive throw_on_error cap rlen =>
    exact inv_start (inv_init reused stream_open redirect keep_alive
      throw_on_error cap rlen)
  | step c e _ hA ih => exact inv_step ih hA

/-! Stability of final states: from any final state other than `EXPIRED`, no
completion handler changes the `state` field. -/

lemma set_error_ec_of_final {c : Conn} (hf : in_final_state c.state = true)
    (s : ErrorCode) (ec : Ec) : set_error_ec c s ec = c := by
  unfold set_error_ec
  split
  · rfl
  · exact set_error_of_final hf s _

lemma resolve_st {c : Conn} (hf : in_final_state c.state = true)
    (hne : c.state ≠ ErrorCode.EXPIRED) : (resolve c).state = c.state := by
  unfold resolve
  rw [set_state_of_final hf hne]

lemma connect_st {c : Conn} (hf : in_final_state c.state = true)
    (hne : c.state ≠ ErrorCode.EXPIRED) : (connect c).state = c.state := by
  unfold connect
  rw [set_state_of_final hf hne]

lemma handshake_st {c : Conn} (hf : in_final_state c.state = true)
    (hne : c.state ≠ ErrorCode.EXPIRED) : (handshake c).state = c.state := by
  unfold handshake
  rw [set_state_of_final hf hne]

lemma write_st {c : Conn} (hf : in_final_state c.state = true)
    (hne : c.state ≠ ErrorCode.EXPIRED) : (write c).state = c.state := by
  unfold write
  rw [set_state_of_final hf hne]

lemma read_status_st {c : Conn} (hf : in_final_state c.state = true)
    (hne : c.state ≠ ErrorCode.EXPIRED) : (read_status c).state = c.state := by
  unfold read_status
  rw [set_state_of_final hf hne]

lemma read_headers_st {c : Conn} (hf : in_final_state c.state = true)
    (hne : c.state ≠ ErrorCode.EXPIRED) : (read_headers c).state = c.state := by
  unfold read_headers
  rw [set_state_of_final hf hne]

lemma read_content_length_st {c : Conn} (hf : in_final_state c.state = true)
    (hne : c.state ≠ ErrorCode.EXPIRED) :
    (read_content_length c).state = c.state := by
  unfold read_content_length
  rw [set_state_of_final hf hne]

lemma read_until_eof_st {c : Conn} (hf : in_final_state c.state = true)
    (hne : c.state ≠ ErrorCode.EXPIRED) :
    (read_until_eof c).state = c.state := by
  unfold read_until_eof
  rw [set_state_of_final hf hne]

lemma read_chunk_data_st {c : Conn} (hf : in_final_state c.state = true)
    (hne : c.state ≠ ErrorCode.EXPIRED) :
    (read_chunk_data c).state = c.state := by
  unfold read_chunk_data
  rw [set_state_of_final hf hne]

lemma perform_redirect_st {c : Conn} (hf : in_final_state c.state = true)
    (hne : c.state ≠ ErrorCode.EXPIRED) :
    (perform_redirect c).state = c.state := by
  unfold perform_redirect
  split
  · rw [set_error_of_final hf]
  · split
    · rw [set_error_of_final hf]
    · exact resolve_st hf hne

lemma set_success_st {c : Conn} (hf : in_final_state c.state = true)
    (hne : c.state ≠ ErrorCode.EXPIRED) : (set_success c).state = c.state := by
  unfold set_success
  split
  · split
    · exact perform_redirect_st hf hne
    · rfl
  · split
    · rename_i hcond
      rw [hf] at hcond
      simp at hcond
    · rfl

lemma set_timeout_st {c : Conn} (hf : in_final_state c.state = true) :
    (set_timeout c).state = c.state := by
  unfold set_timeout
  split
  · split <;> rfl
  · rename_i hcond
    exact absurd hf hcond

lemma chunk_st (fuel : Nat) :
    ∀ (c : Conn) (ec : Ec) (ps : List PStep) (pk : List Bool),
      in_final_state c.state = true → c.state ≠ ErrorCode.EXPIRED →
      (read_chunk_header fuel c ps pk).state = c.state ∧
      (on_read_chunk_header fuel c ec ps pk).state = c.state ∧
      (on_read_chunk_data fuel c ec ps pk).state = c.state := by
  induction fuel with
  | zero =>
    intro c ec ps pk hf hne
    simp [read_chunk_header, on_read_chunk_header, on_read_chunk_data]
  | succ fuel ih =>
    intro c ec ps pk hf hne
    refine ⟨?_, ?_, ?_⟩
    · simp only [read_chunk_header]
      rw [set_state_of_final hf hne]
      cases pk with
      | nil => rfl
      | cons b pk' =>
        cases b with
        | true =>
          dsimp only
          exact (ih c Ec.ok ps pk' hf hne).2.1
        | false => rfl
    · simp only [on_read_chunk_header]
      split
      · split
        · rw [set_error_ec_of_final hf]
        · exact set_success_st hf hne
      · cases ps with
        | nil => rw [set_error_of_final hf]
        | cons p ps' =>
          dsimp only
          have hf' : in_final_state ((parser_execute c p).1).state = true := hf
          have hne' : ((parser_execute c p).1).state ≠ ErrorCode.EXPIRED := hne
          split
          · split
            · split
              · rw [set_state_of_final hf' hne']
                exact (ih _ Ec.ok ps' pk hf' hne').2.2
              · exact read_chunk_data_st hf' hne'
            · exact set_success_st hf' hne'
          · rw [set_error_of_final hf']
            exact rfl
    · simp only [on_read_chunk_data]
      split
      · rw [set_error_ec_of_final hf]
      · split
        · rw [set_error_ec_of_final hf]
        · cases ps with
          | nil => rw [set_error_of_final hf]
          | cons p ps' =>
            dsimp only
            have hf' : in_final_state ((parser_execute c p).1).state = true := hf
            have hne' : ((parser_execute c p).1).state ≠ ErrorCode.EXPIRED := hne
            split
            · exact (ih _ ec ps' pk hf' hne').1
            · rw [set_error_of_final hf']
              exact rfl

lemma read_content_st {c : Conn} (hf : in_final_state c.state = true)
    (hne : c.state ≠ ErrorCode.EXPIRED) (fuel : Nat) (ps : List PStep)
    (pk : List Bool) : (read_content fuel c ps pk).state = c.state := by
  unfold read_content
  split
  · exact read_content_length_st hf hne
  · split
    · exact (chunk_st fuel c Ec.ok ps pk hf hne).1
    · exact read_until_eof_st hf hne

lemma on_resolve_st {c : Conn} (hf : in_final_state c.state = true)
    (hne : c.state ≠ ErrorCode.EXPIRED) (ec : Ec) :
    (on_resolve c ec).state = c.state := by
  unfold on_resolve
  split
  · exact connect_st hf hne
  · rw [set_error_ec_of_final hf]

lemma on_connect_st {c : Conn} (hf : in_final_state c.state = true)
    (hne : c.state ≠ ErrorCode.EXPIRED) (ec : Ec) :
    (on_connect c ec).state = c.state := by
  unfold on_connect
  split
  · exact handshake_st hf hne
  · rw [set_error_ec_of_final hf]

lemma on_handshake_st {c : Conn} (hf : in_final_state c.state = true)
    (hne : c.state ≠ ErrorCode.EXPIRED) (ec : Ec) :
    (on_handshake c ec).state = c.state := by
  unfold on_handshake
  split
  · exact write_st hf hne
  · rw [set_error_ec_of_final hf]

lemma on_write_st {c : Conn} (hf : in_final_state c.state = true)
    (hne : c.state ≠ ErrorCode.EXPIRED) (ec : Ec) :
    (on_write c ec).state = c.state := by
  unfold on_write
  split
  · exact read_status_st hf hne
  · split
    · rename_i hcond
      rw [hf] at hcond
      simp at hcond
    · rw [set_error_ec_of_final hf]

lemma on_read_status_st {c : Conn} (hf : in_final_state c.state = true)
    (hne : c.state ≠ ErrorCode.EXPIRED) (ec : Ec) (ps : List PStep) :
    (on_read_status c ec ps).state = c.state := by
  unfold on_read_status
  split
  · cases ps with
    | nil => rw [set_error_of_final hf]
    | cons p ps' =>
      dsimp only
      have hf' : in_final_state ((parser_execute c p).1).state = true := hf
      have hne' : ((parser_execute c p).1).state ≠ ErrorCode.EXPIRED := hne
      split
      · exact read_headers_st hf' hne'
      · rw [set_error_of_final hf']
        exact rfl
  · split
    · rename_i hcond
      rw [hf] at hcond
      simp at hcond
    · rw [set_error_ec_of_final hf]

lemma on_read_content_length_st {c : Conn} (hf : in_final_state c.state = true)
    (hne : c.state ≠ ErrorCode.EXPIRED) (ec : Ec) (ps : List PStep) :
    (on_read_content_length c ec ps).state = c.state := by
  unfold on_read_content_length
  split
  · rw [set_error_ec_of_final hf]
  · cases ps with
    | nil => rw [set_error_of_final hf]
    | cons p ps' =>
      dsimp only
      have hf' : in_final_state ((parser_execute c p).1).state = true := hf
      have hne' : ((parser_execute c p).1).state ≠ ErrorCode.EXPIRED := hne
      split
      · exact set_success_st hf' hne'
      · rw [set_error_of_final hf']
        exact rfl

lemma on_read_until_eof_st {c : Conn} (hf : in_final_state c.state = true)
    (hne : c.state ≠ ErrorCode.EXPIRED) (ec : Ec) (ps : List PStep) :
    (on_read_until_eof c ec ps).state = c.state := by
  unfold on_read_until_eof
  split
  · split
    · rw [set_error_ec_of_final hf]
    · cases ps with
      | nil => rw [set_error_of_final hf]
      | cons p ps' =>
        dsimp only
        have hf' : in_final_state ((parser_execute c p).1).state = true := hf
        have hne' : ((parser_execute c p).1).state ≠ ErrorCode.EXPIRED := hne
        split
        · exact set_success_st hf' hne'
        · rw [set_error_of_final hf']
          exact rfl
  · exact read_until_eof_st hf hne

lemma on_read_headers_st {c : Conn} (hf : in_final_state c.state = true)
    (hne : c.state ≠ ErrorCode.EXPIRED) (ec : Ec) (ps : List PStep)
    (pk : List Bool) : (on_read_headers c ec ps pk).state = c.state := by
  unfold on_read_headers
  split
  · rw [set_error_ec_of_final hf]
  · dsimp only
    rw [set_error_of_final hf, ite_self]
    cases ps with
    | nil => rw [set_error_of_final hf]
    | cons p ps' =>
      dsimp only
      have hf' : in_final_state ((parser_execute c p).1).state = true := hf
      have hne' : ((parser_execute c p).1).state ≠ ErrorCode.EXPIRED := hne
      split
      · exact read_content_st hf' hne' _ _ _
      · rw [set_error_of_final hf']
        exact rfl

lemma on_timeout_st {c : Conn} (hf : in_final_state c.state = true) (ec : Ec) :
    (on_timeout c ec).state = c.state := by
  unfold on_timeout
  split
  · exact set_timeout_st hf
  · rfl

lemma on_dispose_timer_st {c : Conn} (hf : in_final_state c.state = true)
    (hne : c.state ≠ ErrorCode.EXPIRED) (ec : Ec) :
    (on_dispose_timer c ec).state = c.state := by
  unfold on_dispose_timer
  split
  · unfold set_dispose
    rw [set_state_of_final hf hne]
  · rfl

lemma step_st {c : Conn} (e : Ev) (hf : in_final_state c.state = true)
    (hne : c.state ≠ ErrorCode.EXPIRED) : (stepEv c e).state = c.state := by
  cases e with
  | evResolve ec => exact on_resolve_st hf hne ec
  | evConnect ec => exact on_connect_st hf hne ec
  | evHandshake ec => exact on_handshake_st hf hne ec
  | evWrite ec => exact on_write_st hf hne ec
  | evReadStatus ec bytes ps =>
    have hf' : in_final_state (deliver c bytes).state = true := hf
    have hne' : (deliver c bytes).state ≠ ErrorCode.EXPIRED := hne
    exact on_read_status_st hf' hne' ec ps
  | evReadHeaders ec bytes ps pk =>
    have hf' : in_final_state (deliver c bytes).state = true := hf
    have hne' : (deliver c bytes).state ≠ ErrorCode.EXPIRED := hne
    exact on_read_headers_st hf' hne' ec ps pk
  | evReadContentLength ec bytes ps =>
    have hf' : in_final_state (deliver c bytes).state = true := hf
    have hne' : (deliver c bytes).state ≠ ErrorCode.EXPIRED := hne
    exact on_read_content_length_st hf' hne' ec ps
  | evReadChunkHeader ec bytes ps pk =>
    have hf' : in_final_state (deliver c bytes).state = true := hf
    have hne' : (deliver c bytes).state ≠ ErrorCode.EXPIRED := hne
    exact (chunk_st _ _ ec ps pk hf' hne').2.1
  | evReadChunkData ec bytes ps pk =>
    have hf' : in_final_state (deliver c bytes).state = true := hf
    have hne' : (deliver c bytes).state ≠ ErrorCode.EXPIRED := hne
    exact (chunk_st _ _ ec ps pk hf' hne').2.2
  | evReadUntilEof ec bytes ps =>
    have hf' : in_final_state (deliver c bytes).state = true := hf
    have hne' : (deliver c bytes).state ≠ ErrorCode.EXPIRED := hne
    exact on_read_until_eof_st hf' hne' ec ps
  | evTimeout ec => exact on_timeout_st hf ec
  | evDispose ec => exact on_dispose_timer_st hf hne ec

/-! Auth round-trip lemmas. -/

lemma colon_not_mem_take :
    ∀ {s : List Char} {i : Nat}, find_colon s = some i → ':' ∉ s.take i := by
  intro s
  induction s with
  | nil =>
    intro i h
    simp [find_colon] at h
  | cons ch rest ih =>
    intro i h
    unfold find_colon at h
    by_cases hc : ch = ':'
    · rw [if_pos hc] at h
      injection h with h'
      subst h'
      simp
    · rw [if_neg hc] at h
      rw [Option.map_eq_some'] at h
      obtain ⟨j, hj, hji⟩ := h
      subst hji
      rw [List.take_succ_cons]
      intro hmem
      rcases List.mem_cons.mp hmem with h1 | h1
      · exact hc h1.symm
      · exact ih hj h1

lemma find_colon_append :
    ∀ {l : List Char} (p : List Char), ':' ∉ l →
      find_colon (l ++ ':' :: p) = some l.length := by
  intro l
  induction l with
  | nil =>
    intro p _
    simp [find_colon]
  | cons ch l' ih =>
    intro p h
    have hc : ch ≠ ':' := by
      intro hh
      exact h (by rw [hh]; exact List.mem_cons_self _ _)
    simp only [List.cons_append]
    unfold find_colon
    rw [if_neg hc, ih p (fun hm => h (List.mem_cons_of_mem _ hm))]
    simp

lemma auth_round_trip {s : List Char} {a : auth_t}
    (h : auth_t.from_string s = some a) :
    auth_t.from_string (auth_t.to_string a) = some a := by
  unfold auth_t.from_string at h
  cases hfc : find_colon s with
  | none =>
    rw [hfc] at h
    exact absurd h (by simp)
  | some i =>
    rw [hfc] at h
    dsimp only at h
    injection h with h'
    subst h'
    have hmem : ':' ∉ s.take i := colon_not_mem_take hfc
    have hs : auth_t.to_string ⟨s.take i, s.drop (i + 1)⟩ =
        s.take i ++ ':' :: s.drop (i + 1) := by
      unfold auth_t.to_string
      simp
    rw [hs]
    unfold auth_t.from_string
    rw [find_colon_append _ hmem]
    dsimp only
    rw [List.take_left]
    have e2 : (s.take i ++ ':' :: s.drop (i + 1)).drop ((s.take i).length + 1) =
        s.drop (i + 1) := by
      have hlen : (s.take i ++ [':']).length = (s.take i).length + 1 := by
        simp
      calc (s.take i ++ ':' :: s.drop (i + 1)).drop ((s.take i).length + 1)
          = ((s.take i ++ [':']) ++ s.drop (i + 1)).drop
              ((s.take i).length + 1) := by simp
        _ = s.drop (i + 1) := List.drop_left' hlen
    rw [e2]

/-! Small projection lemmas used by the claim theorems. -/

lemma set_state_log {c : Conn} (s : ErrorCode) : (set_state c s).log = c.log := by
  unfold set_state
  split <;> rfl

lemma set_state_content_length {c : Conn} (s : ErrorCode) :
    (set_state c s).content_length = c.content_length := by
  unfold set_state
  split <;> rfl

lemma set_state_response_buf {c : Conn} (s : ErrorCode) :
    (set_state c s).response_buf = c.response_buf := by
  unfold set_state
  split <;> rfl

lemma set_error_state {c : Conn} {s : ErrorCode} {m : String}
    (hf : in_final_state c.state = false) : (set_error c s m).state = s := by
  rw [set_error_of_not_final hf]
  rw [end_spec.1]

lemma set_error_rc {c : Conn} {s : ErrorCode} {m : String}
    (hf : in_final_state c.state = false) :
    (set_error c s m).redirect_count = c.redirect_count := by
  rw [set_error_of_not_final hf]
  rw [end_spec.2.2.2.2.1]

lemma set_error_ec_state {c : Conn} {s : ErrorCode} {ec : Ec}
    (hf : in_final_state c.state = false) (hab : ec ≠ Ec.operation_aborted) :
    (set_error_ec c s ec).state = s := by
  unfold set_error_ec
  rw [if_neg (by simpa using hab)]
  exact set_error_state hf

lemma set_state_m_is_reused {c : Conn} (s : ErrorCode) :
    (set_state c s).m_is_reused = c.m_is_reused := by
  unfold set_state
  split <;> rfl

lemma restart_not_reused (c : Conn) : is_reused (restart c) = false := by
  unfold is_reused restart setup_timeout resolve parser_prepare
  dsimp only
  rw [set_state_m_is_reused]

/-! Concrete runs used by witnesses and counterexamples. -/

/-- A fresh connection (redirects disabled, cap 5) just after `start()`. -/
def cStart : Conn := start (init_conn false false false false false 5 0)

/-- The same connection after its resolve completes with an error: the first
terminal transition (RESOLVE_ERROR). -/
def cTerm : Conn := stepEv cStart (Ev.evResolve Ec.other_error)

lemma reach_cStart : Reach cStart :=
  Reach.started false false false false false 5 0

lemma reach_cTerm : Reach cTerm :=
  Reach.step cStart (Ev.evResolve Ec.other_error) reach_cStart trivial

/-- A parser step reporting a 301 status line. -/
def p301 : PStep := { pstep 1 with statusCode := some 301 }

/-- A reachable connection in READ_HEADERS whose response carries status 301
while the request has redirect disabled. -/
def c301 : Conn := stepEv cStart (Ev.evReadStatus Ec.ok 20 [p301])

/-! Claim theorems. -/

/-- Claim C1: once a connection's state is terminal, the only state that may
replace it is EXPIRED — along any reachable lifetime no completion handler
moves the machine out of a final state at all (hence never to a different
non-EXPIRED state), and the `set_error` and `set_state` primitives leave any
final (non-EXPIRED — the only final states a lifetime ever reaches) state
untouched. -/
theorem C1_terminal_stability :
    (∀ (c : Conn) (e : Ev), Reach c → Allowed c e →
      in_final_state c.state = true →
      ((stepEv c e).state = c.state ∨ (stepEv c e).state = ErrorCode.EXPIRED)) ∧
    (∀ (c : Conn) (s : ErrorCode) (m : String),
      in_final_state c.state = true → set_error c s m = c) ∧
    (∀ (c : Conn) (s : ErrorCode), in_final_state c.state = true →
      c.state ≠ ErrorCode.EXPIRED → set_state c s = c) := by
  refine ⟨?_, ?_, ?_⟩
  · intro c e hR _ hf
    exact Or.inl (step_st e hf (reach_inv hR).1)
  · intro c s m hf
    exact set_error_of_final hf s m
  · intro c s hf hne
    exact set_state_of_final hf hne s

/-- Claim C1 witness: a concrete finalized connection (RESOLVE_ERROR) and a
timeout expiry; the state does not move. -/
theorem C1_witness :
    in_final_state cTerm.state = true ∧
    ((stepEv cTerm (Ev.evTimeout Ec.ok)).state = cTerm.state ∨
      (stepEv cTerm (Ev.evTimeout Ec.ok)).state = ErrorCode.EXPIRED) :=
  ⟨by decide, C1_terminal_stability.1 cTerm (Ev.evTimeout Ec.ok) reach_cTerm
    trivial (by decide)⟩

/-- Claim C2 counterexample: on a concrete run ending in RESOLVE_ERROR the
action log is resolve, arm-timeout, arm-dispose, fulfill — the dispose timer is
armed strictly before the future is fulfilled, refuting the claim that the
fulfillment happens before the dispose timer is armed. -/
theorem C2_counterexample :
    cTerm.log = [Action.ioResolve, Action.armTimeout, Action.armDispose,
      Action.fulfill] ∧
    ¬ cTerm.log.indexOf Action.fulfill < cTerm.log.indexOf Action.armDispose ∧
    cTerm.log.indexOf Action.armDispose < cTerm.log.indexOf Action.fulfill := by
  decide

/-- Claim C2 (amended): for every started connection the future is fulfilled
exactly once, at the first terminal transition — and during finalization the
dispose timer is armed before (not after) the future is fulfilled. -/
theorem C2_fulfill_once :
    ∀ (c : Conn), Reach c →
      (in_final_state c.state = false →
        c.fulfilled = 0 ∧ c.dispose_armed = 0) ∧
      (in_final_state c.state = true →
        c.fulfilled = 1 ∧ c.dispose_armed = 1 ∧ dbf c.log) := by
  intro c hR
  exact ⟨(reach_inv hR).2.1, (reach_inv hR).2.2.1⟩

/-- Claim C2 witness: the concrete finalized connection has one fulfillment,
one dispose arming, and the arming precedes the fulfillment in the log. -/
theorem C2_witness :
    cTerm.fulfilled = 1 ∧ cTerm.dispose_armed = 1 ∧ dbf cTerm.log :=
  (C2_fulfill_once cTerm reach_cTerm).2 (by decide)

/-- Claim C3 (code bug): on a reachable connection whose response status is 301
and whose request has redirect disabled, the success-or-redirect dispatch
`set_success` is a complete no-op — no SUCCESS transition, no finalization, no
future fulfillment — instead of transitioning to SUCCESS as specified (the
machine stalls until the overall timeout). -/
theorem C3_redirect_off_is_noop :
    c301.status_code = 301 ∧ c301.redirect = false ∧
    in_final_state c301.state = false ∧
    set_success c301 = c301 ∧
    (set_success c301).fulfilled = 0 ∧
    (set_success c301).log = c301.log := by
  decide

/-- Claim C4 (code bug): when the dispose timer fires on a concrete finalized
connection, the state does not become EXPIRED and `is_expired()` stays false —
`set_state`'s guard tests the current state against EXPIRED instead of the new
one, so `set_dispose` is a no-op from every terminal state. -/
theorem C4_dispose_never_expires :
    in_final_state cTerm.state = true ∧ cTerm.dispose_armed = 1 ∧
    on_dispose_timer cTerm Ec.ok = cTerm ∧
    is_expired (on_dispose_timer cTerm Ec.ok) = false ∧
    set_dispose cTerm = cTerm := by
  decide

/-- Claim C5: `restart` clears the reused flag, and a connection that is not
(or no longer) flagged as reused and fails WRITE or READ_STATUS with a
socket-closed error terminates in WRITE_ERROR / READ_STATUS_ERROR instead of
restarting again — the transparent restart fires at most once per reuse
attempt. -/
theorem C5_restart_once :
    ∀ (c : Conn) (ec : Ec) (ps : List PStep),
      is_socket_closed ec = true → in_final_state c.state = false →
      is_reused (restart c) = false ∧
      (is_reused c = false →
        (on_write c ec).state = ErrorCode.WRITE_ERROR ∧
        (on_read_status c ec ps).state = ErrorCode.READ_STATUS_ERROR) := by
  intro c ec ps hsc hf
  have hecok : ¬ (ec == Ec.ok) = true := by
    cases ec <;> simp_all [is_socket_closed]
  have hab : ec ≠ Ec.operation_aborted := by
    cases ec <;> simp_all [is_socket_closed]
  constructor
  · exact restart_not_reused c
  · intro hnr
    constructor
    · unfold on_write
      rw [if_neg hecok, if_neg (by simp [hnr])]
      exact set_error_ec_state hf hab
    · unfold on_read_status
      rw [if_neg hecok, if_neg (by simp [hnr])]
      exact set_error_ec_state hf hab

/-- Claim C5 witness: a fresh started connection (reused flag off) with an EOF
on write / status read lands in the corresponding error state, and a restart
leaves the flag off. -/
theorem C5_witness :
    is_socket_closed Ec.eof = true ∧ in_final_state cStart.state = false ∧
    is_reused cStart = false ∧ is_reused (restart cStart) = false ∧
    (on_write cStart Ec.eof).state = ErrorCode.WRITE_ERROR ∧
    (on_read_status cStart Ec.eof []).state = ErrorCode.READ_STATUS_ERROR := by
  have h := C5_restart_once cStart Ec.eof [] (by decide) (by decide)
  exact ⟨by decide, by decide, by decide, h.1, (h.2 (by decide)).1,
    (h.2 (by decide)).2⟩

/-- A reachable connection in READ_HEADERS with status 301, redirect enabled,
and redirect_count cap 0. -/
def c6w : Conn :=
  stepEv (start (init_conn false false true false false 0 0))
    (Ev.evReadStatus Ec.ok 10 [p301])

/-- Claim C6: along any reachable lifetime the response's redirect counter
never exceeds the request's redirect_count cap (the counter is incremented only
below the cap), and with cap 0 a 301 response at success-or-redirect dispatch
terminates in REDIRECT_EXHAUSTED without incrementing the counter. -/
theorem C6_redirect_cap :
    ∀ (c : Conn), Reach c →
      c.redirect_count ≤ c.redirect_count_cap ∧
      (c.redirect_count_cap = 0 → c.status_code = 301 → c.redirect = true →
        in_final_state c.state = false →
        (set_success c).state = ErrorCode.REDIRECT_EXHAUSTED ∧
        (set_success c).redirect_count = c.redirect_count) := by
  intro c hR
  refine ⟨(reach_inv hR).2.2.2, ?_⟩
  intro hcap hcode hred hf
  have h301 : is_redirect_code c.status_code = true := by
    rw [hcode]
    decide
  have hex : is_redirect_exhausted c = true := by
    simp [is_redirect_exhausted, hcap]
  unfold set_success
  rw [if_pos h301, if_pos hred]
  unfold perform_redirect
  rw [if_pos hex]
  exact ⟨set_error_state hf, set_error_rc hf⟩

/-- Claim C6 witness: the concrete cap-0 connection with a 301 response is
within its cap and exhausts on dispatch. -/
theorem C6_witness :
    c6w.redirect_count ≤ c6w.redirect_count_cap ∧
    (set_success c6w).state = ErrorCode.REDIRECT_EXHAUSTED ∧
    (set_success c6w).redirect_count = c6w.redirect_count := by
  have h := C6_redirect_cap c6w
    (Reach.step _ _ (Reach.started false false true false false 0 0) trivial)
  exact ⟨h.1, (h.2 (by decide) (by decide) (by decide) (by decide)).1,
    (h.2 (by decide) (by decide) (by decide) (by decide)).2⟩

/-- A connection in READ_CONTENT_LENGTH with declared length 0 and an empty
buffer (the Content-Length: 0 boundary after the headers were consumed). -/
def c7x : Conn :=
  { init_conn false false false false false 5 0 with
    state := ErrorCode.READ_CONTENT_LENGTH }

/-- Claim C7 counterexample: an EOF completion in READ_CONTENT_LENGTH with the
buffer holding at least the declared bytes (both zero) still terminates in
READ_CONTENT_LENGTH_ERROR, because the parser step necessarily consumes no
bytes from the empty buffer — the claim's "if and only if" fails. -/
theorem C7_counterexample :
    is_eof Ec.eof = true ∧
    c7x.content_length ≤ c7x.response_buf ∧
    (on_read_content_length c7x Ec.eof [pstep 5]).state =
      ErrorCode.READ_CONTENT_LENGTH_ERROR := by
  decide

/-- Claim C7 (amended): an EOF completion in READ_CONTENT_LENGTH is the
READ_CONTENT_LENGTH_ERROR terminal whenever the buffer holds fewer bytes than
the declared content length; with at least the declared bytes it proceeds to
the success-or-redirect dispatch provided the parser step consumes at least one
byte (otherwise it is also READ_CONTENT_LENGTH_ERROR, as the counterexample
shows). -/
theorem C7_eof_iff :
    ∀ (c : Conn) (ec : Ec) (p : PStep) (rest : List PStep),
      in_final_state c.state = false → is_eof ec = true →
      (c.response_buf < c.content_length →
        (on_read_content_length c ec (p :: rest)).state =
          ErrorCode.READ_CONTENT_LENGTH_ERROR) ∧
      (c.content_length ≤ c.response_buf →
        0 < min p.nparsed c.response_buf →
        on_read_content_length c ec (p :: rest) =
          set_success (parser_execute c p).1) := by
  intro c ec p rest hf heof
  have hne : (ec != Ec.ok) = true := by
    cases ec <;> simp_all [is_eof]
  have hab : ec ≠ Ec.operation_aborted := by
    cases ec <;> simp_all [is_eof]
  constructor
  · intro hlt
    have hcond : (ec != Ec.ok && !(is_eof ec) ||
        ec != Ec.ok && is_eof ec &&
          decide (c.response_buf < c.content_length)) = true := by
      simp [hne, heof, hlt]
    unfold on_read_content_length
    rw [if_pos hcond]
    exact set_error_ec_state hf hab
  · intro hge hn
    have hcond : (ec != Ec.ok && !(is_eof ec) ||
        ec != Ec.ok && is_eof ec &&
          decide (c.response_buf < c.content_length)) = false := by
      simp [hne, heof]
      omega
    unfold on_read_content_length
    rw [if_neg (by simp [hcond])]
    dsimp only
    rw [if_pos (show (parser_execute c p).2 = true by
      simp [parser_execute]
      omega)]

/-- A connection in READ_CONTENT_LENGTH with 4 declared bytes and 10 buffered. -/
def c7w : Conn :=
  { init_conn false false false false false 5 0 with
    state := ErrorCode.READ_CONTENT_LENGTH, content_length := 4,
    response_buf := 10 }

/-- Claim C7 witness: EOF with the full body buffered proceeds to the
success-or-redirect dispatch. -/
theorem C7_witness :
    on_read_content_length c7w Ec.eof [pstep 10] =
      set_success (parser_execute c7w (pstep 10)).1 :=
  (C7_eof_iff c7w Ec.eof (pstep 10) [] (by decide) (by decide)).2
    (by decide) (by decide)

/-- A connection in READ_CHUNK_HEADER with 5 buffered bytes. -/
def c8x : Conn :=
  { init_conn false false false false false 5 0 with
    state := ErrorCode.READ_CHUNK_HEADER, response_buf := 5 }

/-- A chunk-header parser step: 2 bytes consumed, chunk length 3. -/
def p8 : PStep := { pstep 2 with contentLength := some 3 }

/-- Claim C8 counterexample: after the chunk header parses with length L = 3
and exactly L bytes remain buffered, the machine does not synthesize the
chunk-data completion — it issues a new read (`transfer_at_least 0`), because
the source tests `buffered > L` strictly, not `buffered ≥ L` as claimed. -/
theorem C8_counterexample :
    0 < (parser_execute c8x p8).1.content_length ∧
    (parser_execute c8x p8).1.content_length ≤
      (parser_execute c8x p8).1.response_buf ∧
    on_read_chunk_header 3 c8x Ec.ok [p8] [] =
      read_chunk_data (parser_execute c8x p8).1 ∧
    (on_read_chunk_header 3 c8x Ec.ok [p8] []).log =
      c8x.log ++ [Action.ioReadAtLeast 0] := by
  decide

/-- Claim C8 (amended): after a chunk header with payload length L > 0 is
parsed, the machine feeds the parser directly by synthesizing the chunk-data
completion (no new I/O) only when the buffer holds strictly more than L bytes;
with at most L bytes buffered (including exactly L) it issues a read for at
least the deficit L minus the buffered count (zero at the boundary). -/
theorem C8_chunk_dispatch :
    ∀ (fuel : Nat) (c : Conn) (p : PStep) (ps : List PStep) (pk : List Bool),
      (parser_execute c p).2 = true →
      0 < (parser_execute c p).1.content_length →
      ((parser_execute c p).1.content_length <
          (parser_execute c p).1.response_buf →
        on_read_chunk_header (fuel + 1) c Ec.ok (p :: ps) pk =
          on_read_chunk_data fuel
            (set_state (parser_execute c p).1 ErrorCode.READ_CHUNK_DATA)
            Ec.ok ps pk) ∧
      ((parser_execute c p).1.response_buf ≤
          (parser_execute c p).1.content_length →
        on_read_chunk_header (fuel + 1) c Ec.ok (p :: ps) pk =
          read_chunk_data (parser_execute c p).1 ∧
        (read_chunk_data (parser_execute c p).1).log =
          (parser_execute c p).1.log ++
            [Action.ioReadAtLeast ((parser_execute c p).1.content_length -
              (parser_execute c p).1.response_buf)]) := by
  intro fuel c p ps pk hp hcl
  constructor
  · intro hbuf
    simp only [on_read_chunk_header]
    rw [if_neg (by decide)]
    rw [if_pos hp, if_pos hcl, if_pos hbuf]
  · intro hge
    constructor
    · simp only [on_read_chunk_header]
      rw [if_neg (by decide)]
      rw [if_pos hp, if_pos hcl, if_neg (by omega)]
    · unfold read_chunk_data
      dsimp only
      rw [set_state_log, set_state_content_length, set_state_response_buf]

/-- Claim C8 witness: at the exact boundary (buffer = L = 3) the read branch is
taken. -/
theorem C8_witness :
    on_read_chunk_header 3 c8x Ec.ok [p8] [] =
      read_chunk_data (parser_execute c8x p8).1 :=
  ((C8_chunk_dispatch 2 c8x p8 [] [] (by decide) (by decide)).2
    (by decide)).1

/-- Claim C9: `auth_t::from_string` splits on the first colon —
`from_string "u:p"` yields login "u" / password "p" with
`to_string` giving back "u:p", `from_string "a:b:c"` yields login "a" /
password "b:c" — and every auth value obtained from `from_string` round-trips
through `to_string` and `from_string` to the same login and password. -/
theorem C9_auth_round_trip :
    auth_t.from_string ("u:p".toList) =
      some { first := "u".toList, second := "p".toList } ∧
    auth_t.to_string { first := "u".toList, second := "p".toList } =
      "u:p".toList ∧
    auth_t.from_string ("a:b:c".toList) =
      some { first := "a".toList, second := "b:c".toList } ∧
    ∀ (s : List Char) (a : auth_t), auth_t.from_string s = some a →
      auth_t.from_string (auth_t.to_string a) = some a := by
  refine ⟨by decide, by decide, by decide, ?_⟩
  intro s a h
  exact auth_round_trip h

/-- Claim C9 witness: the round trip at the concrete value "u:p". -/
theorem C9_witness :
    auth_t.from_string (auth_t.to_string
      { first := "u".toList, second := "p".toList }) =
      some { first := "u".toList, second := "p".toList } :=
  C9_auth_round_trip.2.2.2 ("u:p".toList)
    { first := "u".toList, second := "p".toList } (by decide)

/-- Claim C10: `Send` constructs a fresh connection exactly when there is no
previous connection or the previous request differs from the (prepared) pending
request in domain, port, or protocol; otherwise it reuses the previous
connection after updating the pending request's cookies with the previous
response's cookies. -/
theorem C10_session_reuse :
    (∀ (request : request_t), session_send none request =
      ConnChoice.fresh (send_request none request)) ∧
    (∀ (p : prev_conn_t) (request : request_t),
      can_reuse_connection (send_request (some p) request) p.request = false →
      session_send (some p) request =
        ConnChoice.fresh (send_request (some p) request)) ∧
    (∀ (p : prev_conn_t) (request : request_t),
      can_reuse_connection (send_request (some p) request) p.request = true →
      session_send (some p) request =
        ConnChoice.reused { send_request (some p) request with
          cookies := cookies_update (send_request (some p) request).cookies
            p.cookies }) ∧
    (∀ (r l : request_t), can_reuse_connection r l = true ↔
      (l.uri.domain = r.uri.domain ∧ l.uri.port = r.uri.port ∧
        l.uri.protocol = r.uri.protocol)) := by
  refine ⟨?_, ?_, ?_, ?_⟩
  · intro request
    rfl
  · intro p request h
    unfold session_send
    dsimp only
    simp [h]
  · intro p request h
    unfold session_send
    dsimp only
    simp [h]
  · intro r l
    simp [can_reuse_connection, Bool.and_eq_true, beq_iff_eq, and_assoc]

/-- A concrete URI, request, and previous connection for the C10 witness. -/
def rq1 : request_t :=
  { uri := { domain := "example.com", port := "80", protocol := "http" },
    cookies := [("a", "1")], auth := ("u", "p"), cache_redirects := false }

/-- The previous connection: same host, carrying a response cookie. -/
def pc1 : prev_conn_t :=
  { request := rq1, cookies := [("b", "2")], found := none }

/-- Claim C10 witness: with a matching previous request, `Send` reuses the
connection with the cookie jars merged. -/
theorem C10_witness :
    session_send (some pc1) rq1 =
      ConnChoice.reused { send_request (some pc1) rq1 with
        cookies := cookies_update (send_request (some pc1) rq1).cookies
          pc1.cookies } :=
  C10_session_reuse.2.2.1 pc1 rq1 (by decide)

end Crequests
